import Mathlib

/-
Verification of the Palettebuddy generative-art engine.

The definitions below are a shallow embedding of the repository source:
the Flux render pipeline in `src/components/FluxDevice.tsx` (canvas
utility section: `mulberry32`, `noise`, `drawPsychedelicField`, the
pattern renderers `renderLiquidWave`, `renderFluidDisplacement`,
`renderGlassRefraction`, `renderDataMosh`, `renderVortex`, and
`renderFluxToCanvas`) and the audio-sync state machine in the app
component (`toggleAudioSync` and the unified animation loop).

JavaScript numbers are modelled as rationals wherever the source only
performs field/floor/comparison arithmetic, and as reals where the
source calls transcendental functions (sin, cos, sqrt, atan2).
-/

namespace Palettebuddy

/-- Truncation toward zero, the `ToInt` conversion step JavaScript applies
before bitwise operators. -/
def jsTrunc (q : ℚ) : ℤ := if 0 ≤ q then ⌊q⌋ else ⌈q⌉

/-- The JavaScript remainder operator `x % y` (truncated remainder). -/
def jsMod (x y : ℚ) : ℚ := x - y * (jsTrunc (x / y) : ℚ)

/-- 2^32, the modulus of JavaScript 32-bit bitwise arithmetic. -/
def U32 : ℕ := 4294967296

/-- `ToUint32`: truncate a JavaScript number toward zero and reduce mod 2^32. -/
def jsToUint32 (q : ℚ) : ℕ := ((jsTrunc q) % (U32 : ℤ)).toNat

/-- The fixed odd increment `0x6D2B79F5` of `mulberry32`. -/
def MB_INC : ℕ := 1831565813

/-- The output-mixing stage of `mulberry32` from the source
(`t = Math.imul(t ^ t >>> 15, t | 1); t ^= t + Math.imul(t ^ t >>> 7, t | 61);
return ((t ^ t >>> 14) >>> 0)`), computed on unsigned 32-bit residues.
`Math.imul` is multiplication mod 2^32. -/
def mulberryMix (s : ℕ) : ℕ :=
  let t0 := s % U32
  let t1 := ((t0 ^^^ (t0 >>> 15)) * (t0 ||| 1)) % U32
  let t2 := (t1 ^^^ ((t1 + ((t1 ^^^ (t1 >>> 7)) * (t1 ||| 61)) % U32) % U32)) % U32
  (t2 ^^^ (t2 >>> 14)) % U32

/-- Numerator of the n-th output (0-indexed) of `mulberry32 seed`: the state
before the n-th call is `seed + n*INC` (exact in floats for realistic seeds),
the call adds the increment once more and mixes the 32-bit residue. -/
def mbNum (seed n : ℕ) : ℕ := mulberryMix ((seed + (n + 1) * MB_INC) % U32)

/-- The n-th output of `mulberry32 seed` as a rational in [0,1):
the mixed 32-bit word divided by 2^32 (`/ 4294967296` in the source). -/
def mbOut (seed n : ℕ) : ℚ := (mbNum seed n : ℚ) / (U32 : ℚ)

/-- Modelled from the spec: the state of the recommended 32-bit mix generator,
"seeded by `seed`, advanced by a fixed odd increment" each call
(`state += 0x6D2B79F5` in 32-bit arithmetic). -/
def specState (seed : ℕ) : ℕ → ℕ
  | 0 => seed % U32
  | n + 1 => (specState seed n + MB_INC) % U32

/-- Modelled from the spec: the spec output formula
`t = state; t = (t ^ (t>>15)) * (t|1); t ^= t + (t ^ (t>>7)) * (t|61);
return ((t ^ (t>>14)) >>> 0) / 2^32`, computed mod 2^32. -/
def specMix (s : ℕ) : ℕ :=
  let t0 := s % U32
  let t1 := ((t0 ^^^ (t0 >>> 15)) * (t0 ||| 1)) % U32
  let t2 := (t1 ^^^ ((t1 + ((t1 ^^^ (t1 >>> 7)) * (t1 ||| 61)) % U32) % U32)) % U32
  (t2 ^^^ (t2 >>> 14)) % U32

/-- Modelled from the spec: the n-th output of the recommended generator. -/
def specOut (seed n : ℕ) : ℚ := (specMix (specState seed (n + 1)) : ℚ) / (U32 : ℚ)

/-- One sample of `mulberry32 a` for a possibly fractional JavaScript seed `a`:
the increment is added as a float, then the bitwise pipeline truncates to a
32-bit residue. -/
def jsRandFrac (a : ℚ) : ℚ := (mulberryMix (jsToUint32 (a + (MB_INC : ℚ))) : ℚ) / (U32 : ℚ)

/-- The source 2D noise: `noise(x,y,seed)` re-seeds `mulberry32` with
`seed + x*1341 + y*7231`, reads one sample and maps it by `*2 - 1`. -/
def jsNoise (x y seed : ℚ) : ℚ := jsRandFrac (seed + x * 1341 + y * 7231) * 2 - 1

-- Basic facts about the generator.

theorem mulberryMix_lt (s : ℕ) : mulberryMix s < U32 :=
  Nat.mod_lt _ (by norm_num [U32])

theorem mbOut_nonneg (seed n : ℕ) : 0 ≤ mbOut seed n := by
  unfold mbOut
  positivity

theorem mbOut_lt_one (seed n : ℕ) : mbOut seed n < 1 := by
  unfold mbOut
  rw [div_lt_one (by norm_num [U32])]
  exact_mod_cast mulberryMix_lt _

theorem specMix_eq_mulberryMix (s : ℕ) : specMix s = mulberryMix s := rfl

theorem specState_closed (seed n : ℕ) :
    specState seed (n + 1) = (seed + (n + 1) * MB_INC) % U32 := by
  induction n with
  | zero => simp [specState, Nat.mod_add_mod, one_mul]
  | succ k ih =>
      rw [specState, ih, Nat.mod_add_mod]
      ring_nf

theorem jsToUint32_natCast (n : ℕ) : jsToUint32 (n : ℚ) = n % U32 := by
  unfold jsToUint32 jsTrunc
  rw [if_pos (by positivity)]
  rw [Int.floor_natCast]
  rw [← Int.natCast_mod]
  exact Int.toNat_natCast _

theorem jsRandFrac_natCast (n : ℕ) : jsRandFrac (n : ℚ) = mbOut n 0 := by
  unfold jsRandFrac mbOut mbNum
  have h : ((n : ℚ) + (MB_INC : ℚ)) = ((n + MB_INC : ℕ) : ℚ) := by push_cast; ring
  rw [h, jsToUint32_natCast]
  norm_num

theorem jsMod_eq_of_nonneg (x y : ℚ) (hx : 0 ≤ x) (hy : 0 < y) :
    jsMod x y = x - y * (⌊x / y⌋ : ℚ) := by
  unfold jsMod jsTrunc
  rw [if_pos (by positivity)]

theorem jsMod_nonneg (x y : ℚ) (hx : 0 ≤ x) (hy : 0 < y) : 0 ≤ jsMod x y := by
  rw [jsMod_eq_of_nonneg x y hx hy]
  have h := Int.floor_le (x / y)
  have h2 : y * (⌊x / y⌋ : ℚ) ≤ y * (x / y) := by
    exact mul_le_mul_of_nonneg_left h (le_of_lt hy)
  rw [mul_div_cancel₀ x (ne_of_gt hy)] at h2
  linarith

theorem jsMod_lt (x y : ℚ) (hx : 0 ≤ x) (hy : 0 < y) : jsMod x y < y := by
  rw [jsMod_eq_of_nonneg x y hx hy]
  have h := Int.lt_floor_add_one (x / y)
  have h2 : y * (x / y) < y * ((⌊x / y⌋ : ℚ) + 1) := by
    exact mul_lt_mul_of_pos_left h hy
  rw [mul_div_cancel₀ x (ne_of_gt hy)] at h2
  linarith

/-- C9: the successive outputs of the seeded generator `mulberry32(seed)` equal
the mulberry32 mixing formula of the spec computed in mod-2^32 integer
arithmetic and divided by 2^32; every output lies in [0,1); and
`noise(x,y,seed)` equals one sample of the generator re-seeded with
`seed + x*1341 + y*7231`, mapped to the range [-1,1). -/
theorem mulberry_and_noise_spec :
    (∀ seed n : ℕ, mbOut seed n = specOut seed n)
    ∧ (∀ seed n : ℕ, 0 ≤ mbOut seed n ∧ mbOut seed n < 1)
    ∧ (∀ x y seed : ℕ, jsNoise x y seed = mbOut (seed + x * 1341 + y * 7231) 0 * 2 - 1)
    ∧ (∀ x y seed : ℚ, -1 ≤ jsNoise x y seed ∧ jsNoise x y seed < 1) := by
  refine ⟨?_, ?_, ?_, ?_⟩
  · intro seed n
    unfold specOut mbOut mbNum
    rw [specState_closed, specMix_eq_mulberryMix]
  · intro seed n
    exact ⟨mbOut_nonneg seed n, mbOut_lt_one seed n⟩
  · intro x y seed
    unfold jsNoise
    have h : ((seed : ℚ) + (x : ℚ) * 1341 + (y : ℚ) * 7231)
        = ((seed + x * 1341 + y * 7231 : ℕ) : ℚ) := by push_cast; ring
    rw [h, jsRandFrac_natCast]
  · intro x y seed
    unfold jsNoise jsRandFrac
    have hlt : (mulberryMix (jsToUint32 ((seed + x * 1341 + y * 7231) + (MB_INC : ℚ))) : ℚ)
        < (U32 : ℚ) := by
      exact_mod_cast mulberryMix_lt _
    have hnn : (0 : ℚ) ≤ (mulberryMix (jsToUint32 ((seed + x * 1341 + y * 7231) + (MB_INC : ℚ))) : ℚ) := by
      positivity
    have hU : (0 : ℚ) < (U32 : ℚ) := by norm_num [U32]
    constructor
    · have : (0 : ℚ) ≤ (mulberryMix (jsToUint32 ((seed + x * 1341 + y * 7231) + (MB_INC : ℚ))) : ℚ) / (U32 : ℚ) := by positivity
      linarith
    · have : (mulberryMix (jsToUint32 ((seed + x * 1341 + y * 7231) + (MB_INC : ℚ))) : ℚ) / (U32 : ℚ) < 1 := by
        rw [div_lt_one hU]; exact hlt
      linarith

/-
Audio-sync state machine (App component, `src/unnamed/part_005`):
the persisted Flux parameters, the sticky accumulator
`audioAccumulatorRef.current.hueOffset`, and the `audioSync` flag.
-/

/-- The persisted Flux configuration plus the audio accumulator and flag. -/
structure FluxState where
  fluxHue : ℚ
  fluxSpectra : ℚ
  fluxExposure : ℚ
  fluxDistortion : ℚ
  fluxIso : ℚ
  hueOffset : ℚ
  audioSync : Bool

/-- `toggleAudioSync` in flux mode. Deactivation bakes the accumulated offset
into the persisted hue (`setFluxHue(prev => (prev + finalOffset) % 360)`) and
resets the accumulator to 0; activation (successful `getUserMedia`) only sets
the flag. -/
def toggleAudioSync (s : FluxState) : FluxState :=
  if s.audioSync then
    { s with
      audioSync := false
      fluxHue := jsMod (s.fluxHue + s.hueOffset) 360
      hueOffset := 0 }
  else
    { s with audioSync := true }

/-- The hue actually shown on screen: while listening the loop renders with
`(state.fluxHue + audioAccumulatorRef.current.hueOffset) % 360`; otherwise the
static render uses `state.fluxHue` directly. -/
def displayedHue (s : FluxState) : ℚ :=
  if s.audioSync then jsMod (s.fluxHue + s.hueOffset) 360 else s.fluxHue

/-- Bass band of the analysis tick: mean of the first 10 bins over 255. -/
def bassOf (data : List ℕ) : ℚ := (((data.take 10).sum : ℚ) / 10) / 255

/-- Mid band: mean of bins [20,100) over 255. -/
def midOf (data : List ℕ) : ℚ := ((((data.drop 20).take 80).sum : ℚ) / 80) / 255

/-- High band: mean of bins [100,300) over 255. -/
def highOf (data : List ℕ) : ℚ := ((((data.drop 100).take 200).sum : ℚ) / 200) / 255

/-- Tick volume `vol = (bass + mid + high) / 3`. -/
def volumeOf (data : List ℕ) : ℚ := (bassOf data + midOf data + highOf data) / 3

/-- The accumulator update of one analysis tick:
`if (vol > 0.02) audioAccumulatorRef.current.hueOffset += vol * 4`. -/
def tickOffset (off vol : ℚ) : ℚ := if vol > 0.02 then off + vol * 4 else off

/-- One pass of the unified animation loop acting on the accumulator: audio is
analyzed (and the accumulator advanced) only while `audioSync` is on. -/
def loopTick (s : FluxState) (data : List ℕ) : FluxState :=
  if s.audioSync then { s with hueOffset := tickOffset s.hueOffset (volumeOf data) } else s

/-- A whole listening session: the loop runs once per frame over the
successive analyser snapshots. -/
def sessionRun (s : FluxState) (frames : List (List ℕ)) : FluxState :=
  frames.foldl loopTick s

/-- The effective per-frame parameters derived while listening
(`dynDistortion`, `dynIso`, `dynSpectra`, `accumulatedHue` in the loop). -/
structure EffParams where
  distortion : ℚ
  scale : ℚ
  spectra : ℚ
  hue : ℚ

/-- The frame derivation of effective parameters from the persisted state and
the tick energies; the persisted configuration is only read. -/
def deriveEff (s : FluxState) (bass high : ℚ) : EffParams :=
  { distortion := s.fluxDistortion + bass * 80
    scale := s.fluxIso + bass * 50
    spectra := s.fluxSpectra + high * 100
    hue := jsMod (s.fluxHue + s.hueOffset) 360 }

/-- One full frame while listening: analyse audio, advance the accumulator,
then derive the effective parameters for the renderer. -/
def frameTick (s : FluxState) (data : List ℕ) : FluxState × EffParams :=
  let s1 := loopTick s data
  (s1, deriveEff s1 (bassOf data) (highOf data))

theorem tickOffset_le (off vol : ℚ) : off ≤ tickOffset off vol := by
  unfold tickOffset
  split
  · rename_i h
    nlinarith
  · exact le_refl off

theorem loopTick_hueOffset_le (s : FluxState) (data : List ℕ) :
    s.hueOffset ≤ (loopTick s data).hueOffset := by
  unfold loopTick
  split
  · exact tickOffset_le _ _
  · exact le_refl _

theorem sessionRun_hueOffset_le (frames : List (List ℕ)) :
    ∀ s : FluxState, s.hueOffset ≤ (sessionRun s frames).hueOffset := by
  induction frames with
  | nil => intro s; exact le_refl _
  | cons f rest ih =>
      intro s
      calc s.hueOffset ≤ (loopTick s f).hueOffset := loopTick_hueOffset_le s f
        _ ≤ (sessionRun (loopTick s f) rest).hueOffset := ih (loopTick s f)

theorem loopTick_preserves_config (s : FluxState) (data : List ℕ) :
    (loopTick s data).fluxHue = s.fluxHue
    ∧ (loopTick s data).fluxSpectra = s.fluxSpectra
    ∧ (loopTick s data).fluxExposure = s.fluxExposure
    ∧ (loopTick s data).fluxDistortion = s.fluxDistortion
    ∧ (loopTick s data).fluxIso = s.fluxIso
    ∧ (loopTick s data).audioSync = s.audioSync := by
  unfold loopTick
  split <;> exact ⟨rfl, rfl, rfl, rfl, rfl, rfl⟩

/-- C3: each analysis tick with audio sync active advances the accumulator by
`volume * 4` exactly when `volume > 0.02` and leaves it unchanged otherwise;
hence it never decreases across a tick nor across a whole session (in
particular silence never resets it to zero). -/
theorem accumulator_sticky_monotone (s : FluxState) (data : List ℕ)
    (frames : List (List ℕ)) (hs : s.audioSync = true) :
    (volumeOf data > 0.02 →
      (loopTick s data).hueOffset = s.hueOffset + volumeOf data * 4)
    ∧ (volumeOf data ≤ 0.02 → (loopTick s data).hueOffset = s.hueOffset)
    ∧ s.hueOffset ≤ (loopTick s data).hueOffset
    ∧ s.hueOffset ≤ (sessionRun s frames).hueOffset := by
  refine ⟨?_, ?_, loopTick_hueOffset_le s data, sessionRun_hueOffset_le frames s⟩
  · intro hv
    simp only [loopTick, hs, if_true, tickOffset, hv, if_pos]
  · intro hv
    simp only [loopTick, hs, if_true, tickOffset, not_lt.mpr hv, if_neg, not_false_iff]

/-- Witness for C3 at a concrete listening state, a loud frame (all bins 255,
volume 1) and a one-frame session. -/
theorem accumulator_sticky_monotone_witness :
    (volumeOf (List.replicate 300 255) > 0.02 →
      (loopTick ⟨210, 50, 50, 30, 60, 0, true⟩ (List.replicate 300 255)).hueOffset
        = (FluxState.mk 210 50 50 30 60 0 true).hueOffset
          + volumeOf (List.replicate 300 255) * 4)
    ∧ (volumeOf (List.replicate 300 255) ≤ 0.02 →
      (loopTick ⟨210, 50, 50, 30, 60, 0, true⟩ (List.replicate 300 255)).hueOffset
        = (FluxState.mk 210 50 50 30 60 0 true).hueOffset)
    ∧ (FluxState.mk 210 50 50 30 60 0 true).hueOffset
        ≤ (loopTick ⟨210, 50, 50, 30, 60, 0, true⟩ (List.replicate 300 255)).hueOffset
    ∧ (FluxState.mk 210 50 50 30 60 0 true).hueOffset
        ≤ (sessionRun ⟨210, 50, 50, 30, 60, 0, true⟩ [List.replicate 300 255]).hueOffset :=
  accumulator_sticky_monotone ⟨210, 50, 50, 30, 60, 0, true⟩
    (List.replicate 300 255) [List.replicate 300 255] rfl

/-- C1: deactivating audio sync while listening bakes the accumulated offset
into the persisted hue as `(h + Δ) mod 360` — exactly the hue displayed at the
instant of disabling, so the visible hue does not jump — and resets the
accumulator to 0, so a subsequent restart accumulates from 0. -/
theorem toggle_bakes_offset_no_jump (s : FluxState) (hs : s.audioSync = true)
    (h0 : 0 ≤ s.fluxHue) (h1 : s.fluxHue < 360) (h2 : 0 ≤ s.hueOffset) :
    (toggleAudioSync s).fluxHue = jsMod (s.fluxHue + s.hueOffset) 360
    ∧ (toggleAudioSync s).fluxHue = displayedHue s
    ∧ displayedHue (toggleAudioSync s) = displayedHue s
    ∧ 0 ≤ (toggleAudioSync s).fluxHue ∧ (toggleAudioSync s).fluxHue < 360
    ∧ (toggleAudioSync s).hueOffset = 0
    ∧ (toggleAudioSync s).audioSync = false
    ∧ (toggleAudioSync (toggleAudioSync s)).hueOffset = 0
    ∧ (toggleAudioSync (toggleAudioSync s)).audioSync = true := by
  have hsum : 0 ≤ s.fluxHue + s.hueOffset := by linarith
  have hb0 := jsMod_nonneg (s.fluxHue + s.hueOffset) 360 hsum (by norm_num)
  have hb1 := jsMod_lt (s.fluxHue + s.hueOffset) 360 hsum (by norm_num)
  refine ⟨?_, ?_, ?_, ?_, ?_, ?_, ?_, ?_, ?_⟩ <;>
    simp [toggleAudioSync, displayedHue, hs, hb0, hb1]

/-- Witness for C1 at hue 100 and a fractional accumulated offset 400.5
(exceeding a full turn). -/
theorem toggle_bakes_offset_no_jump_witness :
    (toggleAudioSync ⟨100, 50, 50, 30, 60, 801 / 2, true⟩).fluxHue
      = jsMod ((FluxState.mk 100 50 50 30 60 (801 / 2) true).fluxHue
          + (FluxState.mk 100 50 50 30 60 (801 / 2) true).hueOffset) 360
    ∧ (toggleAudioSync ⟨100, 50, 50, 30, 60, 801 / 2, true⟩).fluxHue
      = displayedHue ⟨100, 50, 50, 30, 60, 801 / 2, true⟩
    ∧ displayedHue (toggleAudioSync ⟨100, 50, 50, 30, 60, 801 / 2, true⟩)
      = displayedHue ⟨100, 50, 50, 30, 60, 801 / 2, true⟩
    ∧ 0 ≤ (toggleAudioSync ⟨100, 50, 50, 30, 60, 801 / 2, true⟩).fluxHue
    ∧ (toggleAudioSync ⟨100, 50, 50, 30, 60, 801 / 2, true⟩).fluxHue < 360
    ∧ (toggleAudioSync ⟨100, 50, 50, 30, 60, 801 / 2, true⟩).hueOffset = 0
    ∧ (toggleAudioSync ⟨100, 50, 50, 30, 60, 801 / 2, true⟩).audioSync = false
    ∧ (toggleAudioSync (toggleAudioSync ⟨100, 50, 50, 30, 60, 801 / 2, true⟩)).hueOffset = 0
    ∧ (toggleAudioSync (toggleAudioSync ⟨100, 50, 50, 30, 60, 801 / 2, true⟩)).audioSync = true :=
  toggle_bakes_offset_no_jump ⟨100, 50, 50, 30, 60, 801 / 2, true⟩ rfl
    (by norm_num) (by norm_num) (by norm_num)

/-- C2: each listening frame derives the effective parameters as
`distortion + bass*80`, `iso + bass*50`, `spectra + high*100` and
`(hue + hueOffset) mod 360` (always in [0,360), even for fractional offsets
past 360), and never writes any of them back to the persisted configuration. -/
theorem frame_derives_effective (s : FluxState) (data : List ℕ)
    (h0 : 0 ≤ s.fluxHue) (h2 : 0 ≤ s.hueOffset) :
    ((frameTick s data).2.distortion = s.fluxDistortion + bassOf data * 80)
    ∧ ((frameTick s data).2.scale = s.fluxIso + bassOf data * 50)
    ∧ ((frameTick s data).2.spectra = s.fluxSpectra + highOf data * 100)
    ∧ ((frameTick s data).2.hue
        = jsMod (s.fluxHue + (frameTick s data).1.hueOffset) 360)
    ∧ (0 ≤ (frameTick s data).2.hue ∧ (frameTick s data).2.hue < 360)
    ∧ ((frameTick s data).1.fluxHue = s.fluxHue
       ∧ (frameTick s data).1.fluxSpectra = s.fluxSpectra
       ∧ (frameTick s data).1.fluxExposure = s.fluxExposure
       ∧ (frameTick s data).1.fluxDistortion = s.fluxDistortion
       ∧ (frameTick s data).1.fluxIso = s.fluxIso) := by
  obtain ⟨e1, e2, e3, e4, e5, _⟩ := loopTick_preserves_config s data
  have hoff : 0 ≤ (loopTick s data).hueOffset :=
    le_trans h2 (loopTick_hueOffset_le s data)
  have hsum : 0 ≤ s.fluxHue + (loopTick s data).hueOffset := by linarith
  have hsum2 : 0 ≤ (loopTick s data).fluxHue + (loopTick s data).hueOffset := by
    rw [e1]; exact hsum
  refine ⟨?_, ?_, ?_, ?_, ⟨?_, ?_⟩, e1, e2, e3, e4, e5⟩
  · show (deriveEff (loopTick s data) (bassOf data) (highOf data)).distortion = _
    unfold deriveEff
    rw [e4]
  · show (deriveEff (loopTick s data) (bassOf data) (highOf data)).scale = _
    unfold deriveEff
    rw [e5]
  · show (deriveEff (loopTick s data) (bassOf data) (highOf data)).spectra = _
    unfold deriveEff
    rw [e2]
  · show (deriveEff (loopTick s data) (bassOf data) (highOf data)).hue
      = jsMod (s.fluxHue + (loopTick s data).hueOffset) 360
    unfold deriveEff
    rw [e1]
  · show 0 ≤ (deriveEff (loopTick s data) (bassOf data) (highOf data)).hue
    unfold deriveEff
    exact jsMod_nonneg _ 360 hsum2 (by norm_num)
  · show (deriveEff (loopTick s data) (bassOf data) (highOf data)).hue < 360
    unfold deriveEff
    exact jsMod_lt _ 360 hsum2 (by norm_num)

/-- Witness for C2 at a listening state with fractional offset 725.25 and a
silent analyser frame. -/
theorem frame_derives_effective_witness :
    ((frameTick ⟨210, 50, 50, 30, 60, 2901 / 4, true⟩ []).2.distortion
      = (FluxState.mk 210 50 50 30 60 (2901 / 4) true).fluxDistortion + bassOf [] * 80)
    ∧ ((frameTick ⟨210, 50, 50, 30, 60, 2901 / 4, true⟩ []).2.scale
      = (FluxState.mk 210 50 50 30 60 (2901 / 4) true).fluxIso + bassOf [] * 50)
    ∧ ((frameTick ⟨210, 50, 50, 30, 60, 2901 / 4, true⟩ []).2.spectra
      = (FluxState.mk 210 50 50 30 60 (2901 / 4) true).fluxSpectra + highOf [] * 100)
    ∧ ((frameTick ⟨210, 50, 50, 30, 60, 2901 / 4, true⟩ []).2.hue
      = jsMod ((FluxState.mk 210 50 50 30 60 (2901 / 4) true).fluxHue
          + (frameTick ⟨210, 50, 50, 30, 60, 2901 / 4, true⟩ []).1.hueOffset) 360)
    ∧ (0 ≤ (frameTick ⟨210, 50, 50, 30, 60, 2901 / 4, true⟩ []).2.hue
       ∧ (frameTick ⟨210, 50, 50, 30, 60, 2901 / 4, true⟩ []).2.hue < 360)
    ∧ ((frameTick ⟨210, 50, 50, 30, 60, 2901 / 4, true⟩ []).1.fluxHue
        = (FluxState.mk 210 50 50 30 60 (2901 / 4) true).fluxHue
       ∧ (frameTick ⟨210, 50, 50, 30, 60, 2901 / 4, true⟩ []).1.fluxSpectra
        = (FluxState.mk 210 50 50 30 60 (2901 / 4) true).fluxSpectra
       ∧ (frameTick ⟨210, 50, 50, 30, 60, 2901 / 4, true⟩ []).1.fluxExposure
        = (FluxState.mk 210 50 50 30 60 (2901 / 4) true).fluxExposure
       ∧ (frameTick ⟨210, 50, 50, 30, 60, 2901 / 4, true⟩ []).1.fluxDistortion
        = (FluxState.mk 210 50 50 30 60 (2901 / 4) true).fluxDistortion
       ∧ (frameTick ⟨210, 50, 50, 30, 60, 2901 / 4, true⟩ []).1.fluxIso
        = (FluxState.mk 210 50 50 30 60 (2901 / 4) true).fluxIso) :=
  frame_derives_effective ⟨210, 50, 50, 30, 60, 2901 / 4, true⟩ []
    (by norm_num) (by norm_num)

/-
Post chain: the exposure stage at the end of `renderFluxToCanvas`.
The source delegates the blend arithmetic to the host canvas API
(`globalCompositeOperation` plus one `fillRect`), so the stage is embedded as
the composite operation it issues; applying it is parameterized by the host
interpretation of the blend modes.
-/

/-- An RGBA sample with integer channels. -/
structure Pixel where
  r : ℕ
  g : ℕ
  b : ℕ
  a : ℕ
deriving DecidableEq

/-- An image addressed by integer coordinates. -/
def Img : Type := ℤ → ℤ → Pixel

/-- The canvas blend modes the Flux pipeline sets via
`globalCompositeOperation`. -/
inductive JsBlendMode where
  | softLight
  | multiply
  | hardLight
  | screen
  | difference
deriving DecidableEq

/-- A uniform-fill composite: a blend mode, a gray level (255 = white,
0 = black) and the fill opacity. -/
structure FillOp where
  mode : JsBlendMode
  gray : ℚ
  alpha : ℚ
deriving DecidableEq

/-- The composite operation issued by the exposure stage:
`if (exposure !== 50) { fillStyle = exposure > 50 ?
rgba(255,255,255,(exposure-50)/150) : rgba(0,0,0,(50-exposure)/100);
globalCompositeOperation = exposure > 50 ? soft-light : multiply; fillRect }`. -/
def exposureOp (exposure : ℚ) : Option FillOp :=
  if exposure = 50 then none
  else if exposure > 50 then some ⟨JsBlendMode.softLight, 255, (exposure - 50) / 150⟩
  else some ⟨JsBlendMode.multiply, 0, (50 - exposure) / 100⟩

/-- Apply the exposure stage to a buffer, given the host canvas
interpretation of a uniform-fill composite. No operation means the buffer is
handed on untouched. -/
def applyExposure (host : FillOp → Pixel → Pixel) (exposure : ℚ) (img : Img) : Img :=
  match exposureOp exposure with
  | none => img
  | some op => fun x y => host op (img x y)

/-- C4: the exposure stage is a strict no-op at `exposure = 50` (the output
buffer is the input); above 50 it composites a uniform white layer in
soft-light mode at opacity `(exposure-50)/150`; below 50 a uniform black layer
in multiply mode at opacity `(50-exposure)/100`. -/
theorem exposure_stage_spec (host : FillOp → Pixel → Pixel) (img : Img) (e : ℚ) :
    (applyExposure host 50 img = img ∧ exposureOp 50 = none)
    ∧ (e > 50 →
        exposureOp e = some ⟨JsBlendMode.softLight, 255, (e - 50) / 150⟩
        ∧ applyExposure host e img
            = fun x y => host ⟨JsBlendMode.softLight, 255, (e - 50) / 150⟩ (img x y))
    ∧ (e < 50 →
        exposureOp e = some ⟨JsBlendMode.multiply, 0, (50 - e) / 100⟩
        ∧ applyExposure host e img
            = fun x y => host ⟨JsBlendMode.multiply, 0, (50 - e) / 100⟩ (img x y)) := by
  refine ⟨⟨?_, ?_⟩, ?_, ?_⟩
  · unfold applyExposure exposureOp
    norm_num
  · unfold exposureOp
    norm_num
  · intro he
    have hne : e ≠ 50 := by linarith
    have hop : exposureOp e = some ⟨JsBlendMode.softLight, 255, (e - 50) / 150⟩ := by
      unfold exposureOp
      rw [if_neg hne, if_pos he]
    exact ⟨hop, by unfold applyExposure; rw [hop]⟩
  · intro he
    have hne : e ≠ 50 := by linarith
    have hng : ¬e > 50 := by linarith
    have hop : exposureOp e = some ⟨JsBlendMode.multiply, 0, (50 - e) / 100⟩ := by
      unfold exposureOp
      rw [if_neg hne, if_neg hng]
    exact ⟨hop, by unfold applyExposure; rw [hop]⟩

/-- A constant test image used to instantiate the per-pixel theorems. -/
def testImg : Img := fun _ _ => ⟨10, 20, 30, 40⟩

/-- A trivial host interpretation used to instantiate the composite model. -/
def idHost : FillOp → Pixel → Pixel := fun _ p => p

/-- Witness for C4: the stage at exposure 80 and 20 over a concrete image. -/
theorem exposure_stage_spec_witness :
    (applyExposure idHost 50 testImg = testImg ∧ exposureOp 50 = none)
    ∧ (exposureOp 80 = some ⟨JsBlendMode.softLight, 255, ((80 : ℚ) - 50) / 150⟩
       ∧ applyExposure idHost 80 testImg
          = fun x y => idHost ⟨JsBlendMode.softLight, 255, ((80 : ℚ) - 50) / 150⟩ (testImg x y))
    ∧ (exposureOp 20 = some ⟨JsBlendMode.multiply, 0, (50 - (20 : ℚ)) / 100⟩
       ∧ applyExposure idHost 20 testImg
          = fun x y => idHost ⟨JsBlendMode.multiply, 0, (50 - (20 : ℚ)) / 100⟩ (testImg x y)) :=
  ⟨(exposure_stage_spec idHost testImg 80).1,
   (exposure_stage_spec idHost testImg 80).2.1 (by norm_num),
   (exposure_stage_spec idHost testImg 20).2.2 (by norm_num)⟩

/-
Pattern transforms. `renderLiquidWave` (Wave), `renderFluidDisplacement`
(Turbulence), `renderGlassRefraction` (Ripple) and `renderVortex` (Vortex)
are per-pixel remaps of the current buffer; the integer index mappings they
use at the buffer edges are embedded below exactly as in the source.
-/

/-- The edge mapping of Wave's `getIdx`
(`if(xx<0) xx=-xx; if(xx>=width) xx=width-(xx%width)-1;`), applied to
already-floored integer coordinates. -/
def reflectIdx (w x : ℤ) : ℤ :=
  let x1 := if x < 0 then -x else x
  if x1 ≥ w then w - x1 % w - 1 else x1

/-- The edge mapping of Turbulence/Ripple
(`if(sx<0)sx=0; if(sx>=width)sx=width-1;`). -/
def clampIdx (w x : ℤ) : ℤ :=
  let x1 := if x < 0 then 0 else x
  if x1 ≥ w then w - 1 else x1

theorem reflectIdx_bounds (w x : ℤ) (hw : 1 ≤ w) :
    0 ≤ reflectIdx w x ∧ reflectIdx w x < w := by
  have key : ∀ z : ℤ, 0 ≤ z →
      0 ≤ (if z ≥ w then w - z % w - 1 else z)
      ∧ (if z ≥ w then w - z % w - 1 else z) < w := by
    intro z hz
    by_cases h : z ≥ w
    · have h1 : 0 ≤ z % w := Int.emod_nonneg z (by omega)
      have h2 : z % w < w := Int.emod_lt_of_pos z (by omega)
      rw [if_pos h]
      omega
    · rw [if_neg h]
      omega
  simp only [reflectIdx]
  by_cases hx : x < 0
  · rw [if_pos hx]
    exact key (-x) (by omega)
  · rw [if_neg hx]
    exact key x (by omega)

theorem clampIdx_bounds (w x : ℤ) (hw : 1 ≤ w) :
    0 ≤ clampIdx w x ∧ clampIdx w x < w := by
  simp only [clampIdx]
  by_cases hx : x < 0
  · rw [if_pos hx]
    by_cases h : (0 : ℤ) ≥ w
    · omega
    · rw [if_neg h]
      omega
  · rw [if_neg hx]
    by_cases h : x ≥ w
    · rw [if_pos h]
      omega
    · rw [if_neg h]
      omega

theorem reflectIdx_in_range (w x : ℤ) (h0 : 0 ≤ x) (h1 : x < w) :
    reflectIdx w x = x := by
  simp only [reflectIdx]
  rw [if_neg (not_lt.mpr h0)]
  rw [if_neg (not_le.mpr h1)]

theorem reflectIdx_neg (w x : ℤ) (h0 : -w < x) (h1 : x < 0) :
    reflectIdx w x = -x := by
  simp only [reflectIdx]
  rw [if_pos h1]
  rw [if_neg (not_le.mpr (by omega : -x < w))]

theorem reflectIdx_over (w x : ℤ) (h0 : w ≤ x) (h1 : x < 2 * w) :
    reflectIdx w x = 2 * w - 1 - x := by
  simp only [reflectIdx]
  rw [if_neg (not_lt.mpr (by omega : (0 : ℤ) ≤ x))]
  rw [if_pos (by omega : x ≥ w)]
  have hxw : x % w = x - w := by
    have h2 : ((x - w) + w * 1) % w = (x - w) % w := Int.add_mul_emod_self_left (x - w) w 1
    have h3 : (x - w) % w = x - w :=
      Int.emod_eq_of_lt (by omega : (0 : ℤ) ≤ x - w) (by omega : x - w < w)
    have e : (x - w) + w * 1 = x := by ring
    rw [e] at h2
    rw [h2, h3]
  omega

/-- C6: for buffers with width, height ≥ 1, Wave maps out-of-range sampling
coordinates back inside by reflection while Ripple/Turbulence clamp them to
the nearest edge; in all cases the resulting coordinates — and the flattened
RGBA index Wave reads — stay inside the buffer, for every destination pixel
including the four corners. -/
theorem edge_policy_in_bounds (w h xx yy : ℤ) (hw : 1 ≤ w) (hh : 1 ≤ h) :
    (0 ≤ reflectIdx w xx ∧ reflectIdx w xx < w)
    ∧ (0 ≤ reflectIdx h yy ∧ reflectIdx h yy < h)
    ∧ (0 ≤ clampIdx w xx ∧ clampIdx w xx < w)
    ∧ (0 ≤ clampIdx h yy ∧ clampIdx h yy < h)
    ∧ (0 ≤ xx → xx < w → reflectIdx w xx = xx ∧ clampIdx w xx = xx)
    ∧ (-w < xx → xx < 0 → reflectIdx w xx = -xx)
    ∧ (w ≤ xx → xx < 2 * w → reflectIdx w xx = 2 * w - 1 - xx)
    ∧ (xx < 0 → clampIdx w xx = 0)
    ∧ (w ≤ xx → clampIdx w xx = w - 1)
    ∧ (0 ≤ (reflectIdx h yy * w + reflectIdx w xx) * 4
       ∧ (reflectIdx h yy * w + reflectIdx w xx) * 4 + 3 < 4 * (w * h)) := by
  obtain ⟨rx0, rx1⟩ := reflectIdx_bounds w xx hw
  obtain ⟨ry0, ry1⟩ := reflectIdx_bounds h yy hh
  obtain ⟨cx0, cx1⟩ := clampIdx_bounds w xx hw
  obtain ⟨cy0, cy1⟩ := clampIdx_bounds h yy hh
  refine ⟨⟨rx0, rx1⟩, ⟨ry0, ry1⟩, ⟨cx0, cx1⟩, ⟨cy0, cy1⟩, ?_, ?_, ?_, ?_, ?_, ?_⟩
  · intro h0 h1
    constructor
    · exact reflectIdx_in_range w xx h0 h1
    · simp only [clampIdx]
      rw [if_neg (not_lt.mpr h0)]
      rw [if_neg (not_le.mpr h1)]
  · exact reflectIdx_neg w xx
  · exact reflectIdx_over w xx
  · intro hneg
    simp only [clampIdx]
    rw [if_pos hneg]
    rw [if_neg (not_le.mpr (by omega : (0 : ℤ) < w))]
  · intro hge
    simp only [clampIdx]
    rw [if_neg (not_lt.mpr (by omega : (0 : ℤ) ≤ xx))]
    rw [if_pos (by omega : xx ≥ w)]
  · constructor
    · nlinarith
    · have hrow : reflectIdx h yy * w ≤ (h - 1) * w :=
        mul_le_mul_of_nonneg_right (by omega) (by omega)
      nlinarith

/-- Witness for C6 at a 100×50 buffer and an overshooting sample coordinate
(105, -7), past the right edge and above the top edge (the top-right corner
region). -/
theorem edge_policy_in_bounds_witness :
    ((0 ≤ reflectIdx 100 105 ∧ reflectIdx 100 105 < 100)
    ∧ (0 ≤ reflectIdx 50 (-7) ∧ reflectIdx 50 (-7) < 50)
    ∧ (0 ≤ clampIdx 100 105 ∧ clampIdx 100 105 < 100)
    ∧ (0 ≤ clampIdx 50 (-7) ∧ clampIdx 50 (-7) < 50)
    ∧ (0 ≤ (105 : ℤ) → (105 : ℤ) < 100 → reflectIdx 100 105 = 105 ∧ clampIdx 100 105 = 105)
    ∧ (-100 < (105 : ℤ) → (105 : ℤ) < 0 → reflectIdx 100 105 = -105)
    ∧ ((100 : ℤ) ≤ 105 → (105 : ℤ) < 2 * 100 → reflectIdx 100 105 = 2 * 100 - 1 - 105)
    ∧ ((105 : ℤ) < 0 → clampIdx 100 105 = 0)
    ∧ ((100 : ℤ) ≤ 105 → clampIdx 100 105 = 100 - 1)
    ∧ (0 ≤ (reflectIdx 50 (-7) * 100 + reflectIdx 100 105) * 4
       ∧ (reflectIdx 50 (-7) * 100 + reflectIdx 100 105) * 4 + 3 < 4 * (100 * 50))) :=
  edge_policy_in_bounds 100 50 105 (-7) (by decide) (by decide)

/-- The per-pixel sampler of `renderLiquidWave`: a sine horizontal shift per
row, a cosine vertical shift per column, and a chromatic split sampling
R/G/B from three horizontally offset source positions through `getIdx`
(edge reflection). Writes alpha 255. -/
noncomputable def wavePixel (img : Img) (w h : ℤ) (d s seed : ℚ) (x y : ℤ) : Pixel :=
  let ampX : ℝ := ((d : ℝ) / 100) * 80
  let ampY : ℝ := ((d : ℝ) / 100) * 40
  let freqX : ℝ := 0.005 + ((s : ℝ) / 100) * 0.03
  let freqY : ℝ := 0.005 + ((s : ℝ) / 100) * 0.05
  let phase : ℝ := (seed : ℝ) * 0.1
  let split : ℤ := ⌊(d / 100) * 30⌋
  let sx : ℝ := (x : ℝ) + Real.sin ((y : ℝ) * freqX + phase) * ampX
  let sy : ℝ := (y : ℝ) + Real.cos ((x : ℝ) * freqY + phase) * ampY
  let rx : ℤ := ⌊sx - (split : ℝ)⌋
  let gx : ℤ := ⌊sx⌋
  let bx : ℤ := ⌊sx + (split : ℝ)⌋
  let ry : ℤ := ⌊sy⌋
  { r := (img (reflectIdx w rx) (reflectIdx h ry)).r
    g := (img (reflectIdx w gx) (reflectIdx h ry)).g
    b := (img (reflectIdx w bx) (reflectIdx h ry)).b
    a := 255 }

/-- The per-pixel sampler of `renderFluidDisplacement` (Turbulence): two
offset noise lookups displace the source coordinate, floored then clamped.
Writes alpha 255. -/
def turbPixel (img : Img) (w h : ℤ) (d s seed : ℚ) (x y : ℤ) : Pixel :=
  let str : ℚ := (d / 100) * 150
  let zoom : ℚ := 0.001 + (s / 100) * 0.005
  let n1 : ℚ := jsNoise ((x : ℚ) * zoom) ((y : ℚ) * zoom) seed
  let n2 : ℚ := jsNoise ((x : ℚ) * zoom + 100) ((y : ℚ) * zoom + 100) seed
  let sx : ℤ := clampIdx w ⌊(x : ℚ) + n1 * str⌋
  let sy : ℤ := clampIdx h ⌊(y : ℚ) + n2 * str⌋
  { r := (img sx sy).r, g := (img sx sy).g, b := (img sx sy).b, a := 255 }

/-- The per-pixel sampler of `renderGlassRefraction` (Ripple): noise lookups
at two offset phases displace the source coordinate, floored then clamped.
Writes alpha 255. -/
def ripplePixel (img : Img) (w h : ℤ) (d s seed : ℚ) (x y : ℤ) : Pixel :=
  let str : ℚ := (d / 100) * 50
  let freq : ℚ := 0.005 + (s / 100) * 0.02
  let time : ℚ := seed * 0.1
  let nX : ℚ := jsNoise ((x : ℚ) * freq) ((y : ℚ) * freq) time
  let nY : ℚ := jsNoise ((x : ℚ) * freq + 100) ((y : ℚ) * freq + 100) time
  let sx : ℤ := clampIdx w ⌊(x : ℚ) + nX * str⌋
  let sy : ℤ := clampIdx h ⌊(y : ℚ) + nY * str⌋
  { r := (img sx sy).r, g := (img sx sy).g, b := (img sx sy).b, a := 255 }

/-- The per-pixel polar remap of `renderVortex`: twist the angle by
`strength * (1 - min(1, dist/radius))`, scale the radius by the zoom, sample
the floored source coordinate, and fill opaque black outside the buffer. -/
noncomputable def vortexPixel (img : Img) (w h : ℕ) (d s : ℚ) (x y : ℤ) : Pixel :=
  let cx : ℝ := (w : ℝ) / 2
  let cy : ℝ := (h : ℝ) / 2
  let dx : ℝ := (x : ℝ) - cx
  let dy : ℝ := (y : ℝ) - cy
  let dist : ℝ := Real.sqrt (dx * dx + dy * dy)
  let radius : ℝ := ((min w h : ℕ) : ℝ) / 2
  let strength : ℝ := ((d : ℝ) / 100) * 10
  let zoom : ℝ := 1 - ((s : ℝ) / 100) * 0.5
  let angle : ℝ := Complex.arg ⟨dx, dy⟩ + strength * (1 - min 1 (dist / radius))
  let sx : ℝ := cx + Real.cos angle * (dist * zoom)
  let sy : ℝ := cy + Real.sin angle * (dist * zoom)
  if 0 ≤ ⌊sx⌋ ∧ ⌊sx⌋ < (w : ℤ) ∧ 0 ≤ ⌊sy⌋ ∧ ⌊sy⌋ < (h : ℤ) then
    { r := (img ⌊sx⌋ ⌊sy⌋).r, g := (img ⌊sx⌋ ⌊sy⌋).g, b := (img ⌊sx⌋ ⌊sy⌋).b, a := 255 }
  else
    { r := 0, g := 0, b := 0, a := 255 }

/-- `renderVortex`: skipped entirely (`if (distortion < 5) return`) below the
distortion threshold, otherwise the per-pixel polar remap. -/
noncomputable def renderVortex (img : Img) (w h : ℕ) (d s : ℚ) : Img :=
  if d < 5 then img else fun x y => vortexPixel img w h d s x y

/-- Modelled from the spec wording of the Vortex remap: angle increased by
`(distortion/100)*10 * (1 - min(1, dist/radius))`, radius scaled by
`1 - (scale/100)*0.5`, nearest (floored) sample, out-of-bounds opaque black. -/
noncomputable def vortexSpecPixel (img : Img) (w h : ℕ) (d s : ℚ) (x y : ℤ) : Pixel :=
  let cx : ℝ := (w : ℝ) / 2
  let cy : ℝ := (h : ℝ) / 2
  let dx : ℝ := (x : ℝ) - cx
  let dy : ℝ := (y : ℝ) - cy
  let dist : ℝ := Real.sqrt (dx * dx + dy * dy)
  let radius : ℝ := ((min w h : ℕ) : ℝ) / 2
  let theta : ℝ :=
    Complex.arg ⟨dx, dy⟩ + (((d : ℝ) / 100) * 10) * (1 - min 1 (dist / radius))
  let rr : ℝ := dist * (1 - ((s : ℝ) / 100) * 0.5)
  let sx : ℝ := cx + Real.cos theta * rr
  let sy : ℝ := cy + Real.sin theta * rr
  if 0 ≤ ⌊sx⌋ ∧ ⌊sx⌋ < (w : ℤ) ∧ 0 ≤ ⌊sy⌋ ∧ ⌊sy⌋ < (h : ℤ) then
    { r := (img ⌊sx⌋ ⌊sy⌋).r, g := (img ⌊sx⌋ ⌊sy⌋).g, b := (img ⌊sx⌋ ⌊sy⌋).b, a := 255 }
  else
    { r := 0, g := 0, b := 0, a := 255 }

/-- C5: with distortion < 5 the Vortex transform returns the buffer
byte-identical (it is skipped); with distortion ≥ 5 every destination pixel
equals the spec polar remap (twist `(d/100)*10 * (1 - min(1, dist/radius))`,
radius scale `1 - (s/100)*0.5`, floored sample, out-of-bounds opaque black). -/
theorem vortex_skip_and_remap (img : Img) (w h : ℕ) (d s : ℚ) :
    (d < 5 → renderVortex img w h d s = img)
    ∧ (5 ≤ d → ∀ x y : ℤ,
        renderVortex img w h d s x y = vortexSpecPixel img w h d s x y) := by
  constructor
  · intro hd
    unfold renderVortex
    rw [if_pos hd]
  · intro hd x y
    unfold renderVortex
    rw [if_neg (not_lt.mpr hd)]
    rfl

/-- Witness for C5: distortion 3 leaves a concrete buffer untouched, and at
distortion 50 the pixel at the origin matches the spec remap. -/
theorem vortex_skip_and_remap_witness :
    renderVortex testImg 4 4 3 0 = testImg
    ∧ renderVortex testImg 4 4 50 0 0 0 = vortexSpecPixel testImg 4 4 50 0 0 0 :=
  ⟨(vortex_skip_and_remap testImg 4 4 3 0).1 (by norm_num),
   (vortex_skip_and_remap testImg 4 4 50 0).2 (by norm_num) 0 0⟩

/-- C10: Wave, Turbulence, Ripple, and Vortex (when not skipped) write
alpha = 255 to every output pixel, leaving the buffer fully opaque
irrespective of the input alpha channel. -/
theorem displacement_alpha_opaque (img : Img) (w h : ℤ) (wn hn : ℕ)
    (d s seed : ℚ) (x y : ℤ) :
    (wavePixel img w h d s seed x y).a = 255
    ∧ (turbPixel img w h d s seed x y).a = 255
    ∧ (ripplePixel img w h d s seed x y).a = 255
    ∧ (5 ≤ d → (renderVortex img wn hn d s x y).a = 255) := by
  refine ⟨rfl, rfl, rfl, ?_⟩
  intro hd
  show ((if d < 5 then img else fun x y => vortexPixel img wn hn d s x y) x y).a = 255
  rw [if_neg (not_lt.mpr hd)]
  show (vortexPixel img wn hn d s x y).a = 255
  simp only [vortexPixel]
  split
  · rfl
  · rfl

/-- Witness for C10 at a concrete buffer, size and non-skipped distortion. -/
theorem displacement_alpha_opaque_witness :
    (wavePixel testImg 8 6 50 40 7 2 3).a = 255
    ∧ (turbPixel testImg 8 6 50 40 7 2 3).a = 255
    ∧ (ripplePixel testImg 8 6 50 40 7 2 3).a = 255
    ∧ ((5 : ℚ) ≤ 50 → (renderVortex testImg 8 6 50 40 2 3).a = 255) :=
  displacement_alpha_opaque testImg 8 6 8 6 50 40 7 2 3

/-
Glitch (`renderDataMosh`): an RGB channel-recombination stage guarded by
`channelShift > 0`, and a slice-displacement stage guarded by `distortion > 5`.
-/

/-- The per-channel horizontal shift of the Glitch channel stage:
`Math.floor((distortion/100)*40)`. -/
def channelShift (d : ℚ) : ℤ := ⌊(d / 100) * 40⌋

/-- Whether the channel-recombination stage runs: `if (channelShift > 0)`. -/
def channelStageRuns (d : ℚ) : Bool := channelShift d > 0

/-- The number of slice displacements the slice stage performs: the stage is
guarded by `if (distortion > 5)` and then runs
`5 + Math.floor((distortion/100)*30)` iterations. -/
def numSlices (d : ℚ) : ℤ := if d > 5 then 5 + ⌊(d / 100) * 30⌋ else 0

/-- The d-th slice parameters, drawn from `mulberry32(seed)`: each iteration
consumes five samples, in order the height `5 + rng()*100`, the row
`rng()*(height-h)`, the offset `(rng()-0.5)*(width*0.4)*(distortion/80)`, the
black-fill draw (`rng() > 0.8`) and the flash draw (`rng() > 0.9`). -/
structure GlitchSlice where
  sliceHeight : ℚ
  row : ℚ
  xOff : ℚ
  blackFill : Bool
  flash : Bool
deriving DecidableEq

/-- The i-th slice of the Glitch slice stage, as a function of the seed and
the frame parameters. -/
def glitchSlice (seed : ℕ) (d width height : ℚ) (i : ℕ) : GlitchSlice :=
  let hgt : ℚ := 5 + mbOut seed (5 * i) * 100
  { sliceHeight := hgt
    row := mbOut seed (5 * i + 1) * (height - hgt)
    xOff := (mbOut seed (5 * i + 2) - 0.5) * (width * 0.4) * (d / 80)
    blackFill := mbOut seed (5 * i + 3) > 0.8
    flash := mbOut seed (5 * i + 4) > 0.9 }

theorem channelShift_pos_iff (d : ℚ) : channelStageRuns d = true ↔ 5 / 2 ≤ d := by
  unfold channelStageRuns channelShift
  rw [decide_eq_true_iff]
  constructor
  · intro h
    have h1 : (1 : ℤ) ≤ ⌊(d / 100) * 40⌋ := h
    have h2 : (1 : ℚ) ≤ (d / 100) * 40 := by exact_mod_cast Int.le_floor.mp h1
    linarith
  · intro h
    have h2 : (1 : ℚ) ≤ (d / 100) * 40 := by linarith
    have h1 : (1 : ℤ) ≤ ⌊(d / 100) * 40⌋ := Int.le_floor.mpr (by exact_mod_cast h2)
    omega

/-- Counterexample to C8: at distortion 1 (which is > 0) the RGB
channel-recombination stage of the Glitch transform does not run, because
`Math.floor((1/100)*40) = 0`; and at distortion 3 the slice stage performs 0
slice displacements, not between 5 and 35. -/
theorem glitch_claim_counterexample :
    (1 : ℚ) > 0 ∧ channelStageRuns 1 = false
    ∧ (3 : ℚ) > 0 ∧ numSlices 3 = 0 := by
  refine ⟨by norm_num, ?_, by norm_num, ?_⟩
  · unfold channelStageRuns channelShift
    norm_num
  · unfold numSlices
    norm_num

/-- C8 (amended): the Glitch channel-recombination stage runs exactly when
`floor((distortion/100)*40) > 0`, i.e. when distortion ≥ 2.5 — not whenever
distortion > 0; the slice stage runs only when distortion > 5 (0 slices
otherwise) and then performs between 5 and 35 slice displacements, each
slice's row, offset and height drawn deterministically from `mulberry32(seed)`
(together with the frame parameters). -/
theorem glitch_stage_guards (d : ℚ) (seed : ℕ) (width height : ℚ) (i : ℕ) :
    (channelStageRuns d = true ↔ 5 / 2 ≤ d)
    ∧ (d ≤ 5 → numSlices d = 0)
    ∧ (5 < d → d ≤ 100 → 5 ≤ numSlices d ∧ numSlices d ≤ 35)
    ∧ glitchSlice seed d width height i
        = { sliceHeight := 5 + mbOut seed (5 * i) * 100
            row := mbOut seed (5 * i + 1) * (height - (5 + mbOut seed (5 * i) * 100))
            xOff := (mbOut seed (5 * i + 2) - 0.5) * (width * 0.4) * (d / 80)
            blackFill := mbOut seed (5 * i + 3) > 0.8
            flash := mbOut seed (5 * i + 4) > 0.9 } := by
  refine ⟨channelShift_pos_iff d, ?_, ?_, rfl⟩
  · intro hd
    unfold numSlices
    rw [if_neg (not_lt.mpr hd)]
  · intro hd hd2
    unfold numSlices
    rw [if_pos hd]
    constructor
    · have h0 : (0 : ℚ) ≤ (d / 100) * 30 := by nlinarith
      have h1 : (0 : ℤ) ≤ ⌊(d / 100) * 30⌋ := Int.le_floor.mpr (by exact_mod_cast h0)
      omega
    · have h0 : (d / 100) * 30 < 31 := by nlinarith
      have h1 : ⌊(d / 100) * 30⌋ < 31 := Int.floor_lt.mpr (by exact_mod_cast h0)
      omega

/-- Witness for C8: the guards at distortion 4 (slice stage off) and 60
(between 5 and 35 slices), with a concrete seed, frame and slice index. -/
theorem glitch_stage_guards_witness :
    ((channelStageRuns 4 = true ↔ 5 / 2 ≤ (4 : ℚ))
     ∧ ((4 : ℚ) ≤ 5 → numSlices 4 = 0))
    ∧ ((5 : ℚ) < 60 → (60 : ℚ) ≤ 100 → 5 ≤ numSlices 60 ∧ numSlices 60 ≤ 35) :=
  ⟨⟨(glitch_stage_guards 4 12345 100 100 0).1,
    (glitch_stage_guards 4 12345 100 100 0).2.1⟩,
   (glitch_stage_guards 60 12345 100 100 0).2.2.1⟩

/-
Base Field Generator (`drawPsychedelicField`): an angled ramp plus radial
color blobs composited in hard-light mode, all random draws taken in a fixed
order from `mulberry32(seed)`.
-/

/-- The ramp axis angle in degrees: the first generator output times 360. -/
def rampAngleDeg (seed : ℕ) : ℚ := mbOut seed 0 * 360

/-- The blob count: `6 + Math.floor(rng() * 4)` using the second output. -/
def numOrbs (seed : ℕ) : ℕ := 6 + (⌊mbOut seed 1 * 4⌋).toNat

/-- A radial color blob of the base field: position, radius, the drawn hue
offset, the resulting hue, and the composite mode it is drawn with. -/
structure Blob where
  x : ℚ
  y : ℚ
  radius : ℚ
  hueOff : ℚ
  hue : ℚ
  mode : JsBlendMode
deriving DecidableEq

/-- The i-th blob: the loop draws x, y, radius and hue offset in that order
(four generator outputs per blob, after the two header draws). -/
def orbBlob (hue : ℚ) (seed : ℕ) (width height : ℚ) (i : ℕ) : Blob :=
  { x := mbOut seed (2 + 4 * i) * width
    y := mbOut seed (3 + 4 * i) * height
    radius := (0.3 + mbOut seed (4 + 4 * i) * 0.5) * min width height
    hueOff := mbOut seed (5 + 4 * i) * 180
    hue := jsMod (hue + mbOut seed (5 + 4 * i) * 180) 360
    mode := JsBlendMode.hardLight }

/-- All blobs of one base field. -/
def baseFieldBlobs (hue : ℚ) (seed : ℕ) (width height : ℚ) : List Blob :=
  (List.range (numOrbs seed)).map (orbBlob hue seed width height)

/-- Modelled from the spec: a hue-offset draw that is uniform over the
±180° window around the base hue maps the generator sample u ∈ [0,1) of the
i-th blob's hue draw to u*360 - 180, spanning [-180, 180). -/
def specWindowOff (seed : ℕ) (i : ℕ) : ℚ := mbOut seed (5 + 4 * i) * 360 - 180

/-- Counterexample to C7 as stated: at seed 12345 (blob 0, base hue 210) the
code's drawn hue offset (`rng()*180`) is nonnegative and differs from the
uniform ±180°-window draw of the very same generator sample, which is
negative here — the code draws only the upper half [0°, 180°) of the claimed
window, so the offsets are not drawn uniformly over a ±180° window. -/
theorem blob_offset_window_counterexample :
    (orbBlob 210 12345 640 480 0).hueOff ≠ specWindowOff 12345 0
    ∧ specWindowOff 12345 0 < 0
    ∧ 0 ≤ (orbBlob 210 12345 640 480 0).hueOff
    ∧ (orbBlob 210 12345 640 480 0).hueOff < 180 := by
  have hnum : mbNum 12345 (5 + 4 * 0) = 1492380277 := by decide
  have hout : mbOut 12345 (5 + 4 * 0) = (1492380277 : ℚ) / 4294967296 := by
    unfold mbOut U32
    rw [hnum]
    norm_num
  have hoff : (orbBlob 210 12345 640 480 0).hueOff
      = (1492380277 : ℚ) / 4294967296 * 180 := by
    simp only [orbBlob]
    rw [hout]
  have hwin : specWindowOff 12345 0
      = (1492380277 : ℚ) / 4294967296 * 360 - 180 := by
    unfold specWindowOff
    rw [hout]
  refine ⟨?_, ?_, ?_, ?_⟩
  · rw [hoff, hwin]
    norm_num
  · rw [hwin]
    norm_num
  · rw [hoff]
    norm_num
  · rw [hoff]
    norm_num

/-- C7 (amended): the base field composites between 6 and 10 radial color
blobs in hard-light mode; every blob's drawn hue offset lies in the one-sided
window [0, 180) above the base hue (`rng()*180`, never negative — only the
upper half of a ±180° window), and its hue is the base hue plus that offset
mod 360; the ramp angle lies in [0, 360); and all random choices are explicit
functions of the seed (and the frame dimensions) alone. -/
theorem base_field_blobs_spec (hue : ℚ) (seed : ℕ) (width height : ℚ) :
    (6 ≤ numOrbs seed ∧ numOrbs seed ≤ 10)
    ∧ (baseFieldBlobs hue seed width height).length = numOrbs seed
    ∧ (∀ b ∈ baseFieldBlobs hue seed width height,
        b.mode = JsBlendMode.hardLight
        ∧ (0 ≤ b.hueOff ∧ b.hueOff < 180)
        ∧ b.hue = jsMod (hue + b.hueOff) 360)
    ∧ (0 ≤ rampAngleDeg seed ∧ rampAngleDeg seed < 360)
    ∧ (∀ i : ℕ, orbBlob hue seed width height i
        = { x := mbOut seed (2 + 4 * i) * width
            y := mbOut seed (3 + 4 * i) * height
            radius := (0.3 + mbOut seed (4 + 4 * i) * 0.5) * min width height
            hueOff := mbOut seed (5 + 4 * i) * 180
            hue := jsMod (hue + mbOut seed (5 + 4 * i) * 180) 360
            mode := JsBlendMode.hardLight }) := by
  have h0 := mbOut_nonneg seed 1
  have h1 := mbOut_lt_one seed 1
  refine ⟨⟨?_, ?_⟩, ?_, ?_, ⟨?_, ?_⟩, fun i => rfl⟩
  · unfold numOrbs
    omega
  · unfold numOrbs
    have hq : mbOut seed 1 * 4 < 4 := by nlinarith
    have hf : ⌊mbOut seed 1 * 4⌋ < 4 := Int.floor_lt.mpr (by exact_mod_cast hq)
    omega
  · unfold baseFieldBlobs
    rw [List.length_map, List.length_range]
  · intro b hb
    unfold baseFieldBlobs at hb
    rw [List.mem_map] at hb
    obtain ⟨i, _, rfl⟩ := hb
    have ho0 := mbOut_nonneg seed (5 + 4 * i)
    have ho1 := mbOut_lt_one seed (5 + 4 * i)
    simp only [orbBlob]
    refine ⟨trivial, ⟨by nlinarith, by nlinarith⟩, trivial⟩
  · unfold rampAngleDeg
    have := mbOut_nonneg seed 0
    nlinarith
  · unfold rampAngleDeg
    have := mbOut_lt_one seed 0
    nlinarith

/-- Witness for C7 at seed 12345 on a 640×480 frame, inspecting the first
blob of the list. -/
theorem base_field_blobs_spec_witness :
    (6 ≤ numOrbs 12345 ∧ numOrbs 12345 ≤ 10)
    ∧ (baseFieldBlobs 210 12345 640 480).length = numOrbs 12345
    ∧ ((orbBlob 210 12345 640 480 0).mode = JsBlendMode.hardLight
       ∧ (0 ≤ (orbBlob 210 12345 640 480 0).hueOff
          ∧ (orbBlob 210 12345 640 480 0).hueOff < 180)
       ∧ (orbBlob 210 12345 640 480 0).hue
          = jsMod (210 + (orbBlob 210 12345 640 480 0).hueOff) 360)
    ∧ (0 ≤ rampAngleDeg 12345 ∧ rampAngleDeg 12345 < 360) := by
  obtain ⟨hcount, hlen, hall, hang, hformula⟩ := base_field_blobs_spec 210 12345 640 480
  have hmem : orbBlob 210 12345 640 480 0 ∈ baseFieldBlobs 210 12345 640 480 := by
    unfold baseFieldBlobs
    exact List.mem_map.mpr ⟨0, List.mem_range.mpr (by omega), rfl⟩
  exact ⟨hcount, hlen, hall _ hmem, hang⟩

end Palettebuddy
